import Mathlib

/-!
Verification development for the `fast_engine.py` orchestration engine
(media discovery, gap-based segment clustering, resumable batch VAD scan,
windowed transcription, single-slot model cache, line-oriented command server).

Times are modelled as rationals (Python floats carry exact small decimals in
all scenarios of interest); machine-level float error is out of scope.
-/

/-- Round-half-to-even of a rational to an integer, modelling Python's
`round` tie-breaking (banker's rounding). -/
def rhe (q : ℚ) : ℤ :=
  if q - (⌊q⌋ : ℚ) < 1/2 then ⌊q⌋
  else if 1/2 < q - (⌊q⌋ : ℚ) then ⌊q⌋ + 1
  else if ⌊q⌋ % 2 = 0 then ⌊q⌋ else ⌊q⌋ + 1

/-- Model of Python `round(x, 2)` on exact rationals. -/
def round2 (q : ℚ) : ℚ := (rhe (100 * q) : ℚ) / 100

/-- Model of Python `round(x, 1)` on exact rationals. -/
def round1 (q : ℚ) : ℚ := (rhe (10 * q) : ℚ) / 10

/-- A speech segment as reported by a backend.  The Python attribute `end`
is called `stop` here because `end` is a Lean keyword. -/
structure Seg where
  start : ℚ
  stop : ℚ
deriving DecidableEq, Repr

/-- A clustered speech block, with boundaries rounded to 2 decimals. -/
structure Block where
  start : ℚ
  stop : ℚ
deriving DecidableEq, Repr

/-- Loop state of `cluster_segments`: accumulated blocks, the
`current_start` / `last_end` trackers (sentinel `-1`), and the running
segment count. -/
structure ClusterState where
  blocks : List Block
  currentStart : ℚ
  lastEnd : ℚ
  segmentCount : ℕ
deriving DecidableEq, Repr

/-- One iteration of the `for segment in segments` loop of
`cluster_segments` (src/fast_engine.py lines 87-96).  `current_start` is
first replaced by `segment.start` when it is the sentinel `-1`; the gap
test then closes the open block and re-opens at `segment.start`;
`last_end` is updated unconditionally. -/
def clusterStep (T : ℚ) (st : ClusterState) (s : Seg) : ClusterState :=
  if st.lastEnd ≠ -1 ∧ T < s.start - st.lastEnd then
    { blocks := st.blocks ++
        [⟨round2 (if st.currentStart = -1 then s.start else st.currentStart),
          round2 st.lastEnd⟩],
      currentStart := s.start, lastEnd := s.stop,
      segmentCount := st.segmentCount + 1 }
  else
    { blocks := st.blocks,
      currentStart := if st.currentStart = -1 then s.start else st.currentStart,
      lastEnd := s.stop, segmentCount := st.segmentCount + 1 }

/-- Model of `cluster_segments(segments, gap_threshold)`
(src/fast_engine.py lines 80-101): returns the block list and the segment
count.  The default `gap_threshold=180` is passed explicitly by callers. -/
def cluster_segments (segments : List Seg) (T : ℚ) : List Block × ℕ :=
  let st := segments.foldl (clusterStep T) ⟨[], -1, -1, 0⟩
  (if st.currentStart = -1 then st.blocks
   else st.blocks ++ [⟨round2 st.currentStart, round2 st.lastEnd⟩],
   st.segmentCount)

/-- Index of the last occurrence of a character in a character list. -/
def lastIdxOf (c : Char) (cs : List Char) : Option ℕ :=
  match cs.reverse.findIdx? (· = c) with
  | none => none
  | some k => some (cs.length - 1 - k)

/-- Model of `os.path.splitext` (POSIX separators): splits off the
extension at the last dot of the final path component, unless every
character of the component before that dot is itself a dot. -/
def splitext (p : String) : String × String :=
  let cs := p.toList
  match lastIdxOf '.' cs with
  | none => (p, "")
  | some d =>
    let s := match lastIdxOf '/' cs with
      | none => 0
      | some k => k + 1
    if s ≤ d ∧ ((cs.drop s).take (d - s)).any (· ≠ '.') then
      (String.mk (cs.take d), String.mk (cs.drop d))
    else (p, "")

/-- Lower-casing of a string, character by character (model of Python
`str.lower` for the ASCII extensions involved). -/
def toLowerStr (s : String) : String := String.mk (s.toList.map Char.toLower)

/-- Replacement of every occurrence of one character by another (model of
Python `str.replace` for single-character patterns). -/
def charReplace (pat rep : Char) (s : String) : String :=
  String.mk (s.toList.map (fun c => if c = pat then rep else c))

/-- Whitespace stripping at both ends (model of Python `str.strip()`). -/
def stripStr (s : String) : String :=
  String.mk ((s.toList.dropWhile Char.isWhitespace).reverse.dropWhile
    Char.isWhitespace).reverse

/-- Model of `os.path.basename` for POSIX separators. -/
def basename (p : String) : String :=
  String.mk (p.toList.reverse.takeWhile (· ≠ '/')).reverse

/-- Model of `os.path.join(root, f)` for POSIX separators. -/
def joinPath (root f : String) : String := root ++ "/" ++ f

/-- The fixed allow-list `MEDIA_EXTENSIONS` (src/fast_engine.py line 36). -/
def MEDIA_EXTENSIONS : List String :=
  [".mp4", ".mkv", ".avi", ".mov", ".wav", ".mp3", ".flac", ".m4a", ".webm",
   ".aac", ".wma", ".ogg", ".m4v", ".3gp", ".ts", ".mpg", ".mpeg"]

/-- Model of `find_media_files` (src/fast_engine.py lines 38-78).  The
`os.walk` traversal is an external primitive; it is modelled by its result:
the list of `(root, files)` pairs in visit order.  Debug-log writes and the
directory-string normalisation are I/O plumbing outside the data path. -/
def find_media_files (walked : List (String × List String)) : List String :=
  (walked.flatMap (fun rf =>
    (rf.2.filter (fun f => MEDIA_EXTENSIONS.contains (toLowerStr (splitext f).2))).map
      (fun f => joinPath rf.1 f))).mergeSort (fun a b => a ≤ b)

/-- One entry of a scan report.  Python uses dicts; absent keys (the silent
entry has no `transcribe_cmds`, the error entry only `file` and `error`)
are modelled by default values, and `error = none` models key absence,
matching the `"error" not in prev` test. -/
structure ScanEntry where
  file : String
  error : Option String := none
  duration_sec : ℚ := 0
  segments_found : ℕ := 0
  speech_duration_sec : ℚ := 0
  blocks : List Block := []
  transcribe_cmds : List String := []
deriving DecidableEq, Repr

/-- The persisted scan report (src/fast_engine.py lines 233-241). -/
structure ScanReport where
  date : String
  directory : String
  total_files : ℕ
  files_with_voice : ℕ
  results : List ScanEntry
  scan_model : String
  vad_threshold : ℚ
deriving DecidableEq, Repr

/-- Building the `existing_results` index: `for r in data["results"]:
existing_results[r["file"]] = r` — later entries overwrite earlier ones. -/
def lookupEntry (rs : List ScanEntry) (f : String) : Option ScanEntry :=
  rs.foldl (fun a r => if r.file = f then some r else a) none

/-- The fresh-scan arm of the batch VAD loop (src/fast_engine.py lines
195-228): the Silero call `run_vad_scan` is the external collaborator,
modelled by `vad : String → Except String (List Seg × ℚ)` returning the
speech timestamps and the total duration, or the per-file error message. -/
def vadScanFile (vad : String → Except String (List Seg × ℚ)) (file : String) : ScanEntry :=
  match vad file with
  | .error e => { file := file, error := some e }
  | .ok (ts, total) =>
    if ts.isEmpty then
      { file := file, duration_sec := round1 total, segments_found := 0,
        speech_duration_sec := 0, blocks := [] }
    else
      { file := file, duration_sec := round1 total, segments_found := ts.length,
        speech_duration_sec := round1 ((ts.map (fun t => t.stop - t.start)).sum),
        blocks := ts.map (fun t => ⟨round2 t.start, round2 t.stop⟩),
        transcribe_cmds := [] }

/-- The `files_with_voice` increment of the fresh-scan arm: 1 when the VAD
call succeeds with a nonempty timestamp list. -/
def vadVoiceInc (vad : String → Except String (List Seg × ℚ)) (file : String) : ℕ :=
  match vad file with
  | .ok (ts, _) => if ts.isEmpty then 0 else 1
  | .error _ => 0

/-- One iteration of the batch VAD loop (src/fast_engine.py lines 182-228).
The accumulator carries (results, files_with_voice, files actually sent to
the VAD backend); the third component records which files are reprocessed. -/
def vadScanStep (vad : String → Except String (List Seg × ℚ))
    (ex : String → Option ScanEntry)
    (acc : List ScanEntry × ℕ × List String) (file : String) :
    List ScanEntry × ℕ × List String :=
  match ex file with
  | some prev =>
    if prev.error = none then
      (acc.1 ++ [prev], acc.2.1 + (if 0 < prev.segments_found then 1 else 0), acc.2.2)
    else
      (acc.1 ++ [vadScanFile vad file], acc.2.1 + vadVoiceInc vad file, acc.2.2 ++ [file])
  | none =>
    (acc.1 ++ [vadScanFile vad file], acc.2.1 + vadVoiceInc vad file, acc.2.2 ++ [file])

/-- Model of `run_batch_vad_scan` (src/fast_engine.py lines 152-247).
Parameters model the externals: `vad` the Silero backend (taking the
sensitivity threshold), `now` the `datetime.now().isoformat()` timestamp,
`mediaFiles` the discovery result, `prior` the report currently on disk at
`report_path` (`none` when missing or unparsable).  Returns the report
written to disk and the list of files actually scanned. -/
def run_batch_vad_scan (vad : ℚ → String → Except String (List Seg × ℚ))
    (now dir : String) (threshold : ℚ) (mediaFiles : List String)
    (prior : Option ScanReport) (skip_existing : Bool) :
    ScanReport × List String :=
  let existing : String → Option ScanEntry :=
    match prior, skip_existing with
    | some rpt, true => lookupEntry rpt.results
    | _, _ => fun _ => none
  let acc := mediaFiles.foldl (vadScanStep (vad threshold) existing) ([], 0, [])
  ({ date := now, directory := dir, total_files := mediaFiles.length,
     files_with_voice := acc.2.1, results := acc.1,
     scan_model := "silero-vad", vad_threshold := threshold },
   acc.2.2)

/-- The per-file resume decision of the batch VAD loop, as a function of
the prior-report index: a prior error-free entry is reused, otherwise the
file is scanned afresh. -/
def resumeEntryF (vad : String → Except String (List Seg × ℚ))
    (ex : String → Option ScanEntry) (file : String) : ScanEntry :=
  match ex file with
  | some prev => if prev.error = none then prev else vadScanFile vad file
  | none => vadScanFile vad file

/-- Whether the batch VAD loop sends a file to the backend (no prior
error-free entry exists for it). -/
def scanNeeded (ex : String → Option ScanEntry) (file : String) : Bool :=
  match ex file with
  | some prev => if prev.error = none then false else true
  | none => true

/-- The per-file `files_with_voice` contribution of the batch VAD loop. -/
def resumeInc (vad : String → Except String (List Seg × ℚ))
    (ex : String → Option ScanEntry) (file : String) : ℕ :=
  match ex file with
  | some prev => if prev.error = none then (if 0 < prev.segments_found then 1 else 0)
                 else vadVoiceInc vad file
  | none => vadVoiceInc vad file

/-- A transcription segment returned by the speech backend (start, end,
text); `end` is called `stop` as in `Seg`. -/
structure TSeg where
  start : ℚ
  stop : ℚ
  text : String
deriving DecidableEq, Repr

/-- Format a rational like Python's fixed-point `:.2f` (two decimals,
ties to even on the scaled value). -/
def fmt2 (q : ℚ) : String :=
  let n := (rhe (100 * |q|)).toNat
  (if q < 0 then "-" else "") ++ toString (n / 100) ++ "." ++
    (if n % 100 < 10 then "0" else "") ++ toString (n % 100)

/-- Format a rational like Python's fixed-point `:.1f` (one decimal). -/
def fmt1 (q : ℚ) : String :=
  let n := (rhe (10 * |q|)).toNat
  (if q < 0 then "-" else "") ++ toString (n / 10) ++ "." ++ toString (n % 10)

/-- Observable side effects of `run_transcriber`, in program order: the
speech-backend invocation and the transcript-file write (`append` is true
when the file already existed and the section is appended). -/
inductive TEvent where
  | transcribeCall (file : String) (start stop : ℚ)
  | fileWrite (path : String) (append : Bool)
deriving DecidableEq, Repr

/-- The transcript output path computed by `run_transcriber`
(src/fast_engine.py lines 426-433): model tag from the model name with `.`
and `-` replaced by `_`. -/
def transcriptPath (file model_name : String) (output_dir : Option String) : String :=
  let safe_model := charReplace '-' '_' (charReplace '.' '_' model_name)
  let base_name := (splitext (basename file)).1
  match output_dir with
  | some d => d ++ "/" ++ base_name ++ "_transcript_" ++ safe_model ++ ".txt"
  | none => (splitext file).1 ++ "_transcript_" ++ safe_model ++ ".txt"

/-- Model of `run_transcriber` (src/fast_engine.py lines 400-449).  The
speech backend is `backend file start stop`; the filesystem is a partial
map from paths to file contents.  Returns the returned line list, the
filesystem after the call, and the event trace.  `os.makedirs` on
`output_dir` only creates directories and is not in the file map. -/
def run_transcriber (backend : String → ℚ → ℚ → List TSeg)
    (fs : String → Option String) (file : String) (start stop : ℚ)
    (model_name : String) (output_dir : Option String) (skip_existing : Bool) :
    List String × (String → Option String) × List TEvent :=
  let segs := backend file start stop
  let lines := segs.map (fun s =>
    "[" ++ fmt2 s.start ++ " - " ++ fmt2 s.stop ++ "] " ++ stripStr s.text)
  let out_path := transcriptPath file model_name output_dir
  if skip_existing ∧ (fs out_path).isSome then
    ([], fs, [.transcribeCall file start stop])
  else
    let isAppend := (fs out_path).isSome
    let section_text :=
      "--- Transcription [" ++ fmt1 start ++ "s - " ++ fmt1 stop ++ "s] ---\n" ++
      "Source: " ++ file ++ "\n" ++
      String.join (lines.map (· ++ "\n")) ++ "\n"
    let newContent := (if isAppend then ((fs out_path).getD "") else "") ++ section_text
    (lines, fun p => if p = out_path then some newContent else fs p,
     [.transcribeCall file start stop, .fileWrite out_path isAppend])

/-- A parsed server command: the `action` field and the `model` field of
the JSON object (`none` models an absent key). Other fields (directory,
file, start, end, ...) are forwarded to handlers and do not affect the
response or cache behaviour modelled here. -/
structure Cmd where
  action : Option String
  model : Option String := none
deriving DecidableEq, Repr

/-- Machine-relevant output lines of the server process: the protocol JSON
status objects and the malformed-input error line.  Free-text progress
lines carry no protocol data and are not modelled. -/
inductive OutLine where
  | pong
  | complete (action : String)
  | handlerComplete (action : String)
  | handlerError (message : String)
  | invalidJsonError
deriving DecidableEq, Repr

/-- Outcome of one `run_semantic_search` call, determined by the
environment (installed libraries, transcripts on disk): which early-return
path, if any, the handler takes (src/fast_engine.py lines 705-791). -/
inductive SemOutcome where
  | libMissing | modelLoadFailed | noTranscripts | noChunks | results
deriving DecidableEq, Repr

/-- Bare JSON status lines printed from inside `run_semantic_search`:
an error object when sentence-transformers is missing, a complete object
with empty results when no transcript files or no content lines exist. -/
def semanticEmits : SemOutcome → List OutLine
  | .libMissing => [.handlerError "sentence-transformers not installed"]
  | .modelLoadFailed => []
  | .noTranscripts => [.handlerComplete "semantic_search"]
  | .noChunks => [.handlerComplete "semantic_search"]
  | .results => []

/-- Outcome of one `run_detect_meetings` call (src/fast_engine.py lines
1006-1169): whether any transcript files were found. -/
inductive DetectOutcome where
  | noTranscripts | someTranscripts
deriving DecidableEq, Repr

/-- Bare JSON status line printed from inside `run_detect_meetings` when no
transcript files are found. -/
def detectEmits : DetectOutcome → List OutLine
  | .noTranscripts => [.handlerComplete "detect_meetings"]
  | .someTranscripts => []

/-- Environment of a server run: which paths the semantic-search and
meeting-detection handlers take. -/
structure ServerEnv where
  semantic : SemOutcome
  detect : DetectOutcome
deriving DecidableEq, Repr

/-- The single-slot speech-model cache of the server loop: the loaded
model's name and an abstract handle identifying the loaded `WhisperModel`
instance; `loads` counts constructions so far, and a fresh construction
yields a fresh handle. -/
structure ModelCache where
  name : String
  handle : ℕ
  loads : ℕ
deriving DecidableEq, Repr

/-- The `if current_model_name != requested: construct and record` pattern
(src/fast_engine.py lines 1289-1292 and 1313-1316). -/
def ensureModel (req : String) (st : ModelCache) : ModelCache :=
  if st.name = req then st
  else { name := req, handle := st.loads + 1, loads := st.loads + 1 }

/-- Cache state after the server starts: `tiny.en` is pre-loaded once
(src/fast_engine.py lines 1265, 1273-1274). -/
def serverInitCache : ModelCache := { name := "tiny.en", handle := 1, loads := 1 }

/-- The model the dispatch loop requires before running a command: `scan`
forces `tiny.en`; `transcribe` requests `cmd.get("model", "large-v3")`;
other actions leave the cache untouched. -/
def requestedModel (c : Cmd) : Option String :=
  match c.action with
  | some "scan" => some "tiny.en"
  | some "transcribe" => some (c.model.getD "large-v3")
  | _ => none

/-- Cache effect of one dispatched command. -/
def serverCacheStep (c : Cmd) (st : ModelCache) : ModelCache :=
  match requestedModel c with
  | some r => ensureModel r st
  | none => st

/-- Response lines emitted for one parsed command, and whether the loop
continues, mirroring the `elif` chain of `run_server` (src/fast_engine.py
lines 1284-1359) in source order.  An action matching no branch emits
nothing and the loop continues. -/
def dispatch (env : ServerEnv) (c : Cmd) : List OutLine × Bool :=
  match c.action with
  | none => ([], true)
  | some a =>
    if a = "ping" then ([.pong], true)
    else if a = "scan" then ([.complete "scan"], true)
    else if a = "vad_scan" then ([.complete "vad_scan"], true)
    else if a = "transcribe" then ([.complete "transcribe"], true)
    else if a = "semantic_search" then
      (semanticEmits env.semantic ++ [.complete "semantic_search"], true)
    else if a = "analyze" then ([.complete "analyze"], true)
    else if a = "detect_meetings" then
      (detectEmits env.detect ++ [.complete "detect_meetings"], true)
    else if a = "exit" then ([], false)
    else ([], true)

/-- Model of the `run_server` read-dispatch loop (src/fast_engine.py lines
1276-1364).  Input is the stdin line sequence after JSON parsing: `none`
is a line that raised `json.JSONDecodeError`, `some c` a parsed command.
End of input or an `exit` action ends the loop. -/
def run_server (env : ServerEnv) : ModelCache → List (Option Cmd) → List OutLine
  | _, [] => []
  | st, none :: rest => .invalidJsonError :: run_server env st rest
  | st, some c :: rest =>
    let out := dispatch env c
    out.1 ++ (if out.2 then run_server env (serverCacheStep c st) rest else [])

/-- Chronological sortedness of a segment list relative to a lower bound
`m` on the first start: each start is at least the previous one. -/
def sortedFrom (m : ℚ) : List Seg → Prop
  | [] => True
  | s :: r => m ≤ s.start ∧ sortedFrom s.start r

/-- Loop invariant of `cluster_segments` for a non-negative gap threshold,
after processing a prefix whose last segment start is `m`: accumulated
blocks are mutually ordered and separated, bounded by the rounded current
start (when a block is open) and by the rounded frontier `m`, and there is
at least one more processed segment than accumulated blocks. -/
def ClusterInv (m : ℚ) (st : ClusterState) : Prop :=
  List.Pairwise (fun b b' => b.stop ≤ b'.start ∧ b.start ≤ b'.start) st.blocks ∧
  (st.currentStart ≠ -1 → st.currentStart ≤ m ∧
    ∀ b ∈ st.blocks, b.stop ≤ round2 st.currentStart ∧ b.start ≤ round2 st.currentStart) ∧
  (∀ b ∈ st.blocks, b.stop ≤ round2 m ∧ b.start ≤ round2 m) ∧
  st.blocks.length + 1 ≤ st.segmentCount

/-- Concrete prior scan entry used in the resume counterexample. -/
def oldEntryEx : ScanEntry :=
  { file := "old.mp4", error := none, duration_sec := 3, segments_found := 1,
    speech_duration_sec := 1, blocks := [⟨0, 1⟩], transcribe_cmds := [] }

/-- Concrete prior report used in the resume counterexample: it holds one
error-free entry for a file that the next discovery run does not find. -/
def rptEx : ScanReport :=
  { date := "2024-01-01T00:00:00", directory := "/media", total_files := 1,
    files_with_voice := 1, results := [oldEntryEx],
    scan_model := "silero-vad", vad_threshold := 1/2 }

/-- Concrete VAD backend stub: every file scans successfully as silent. -/
def vadEx : ℚ → String → Except String (List Seg × ℚ) := fun _ _ => .ok ([], 0)

/-- Concrete VAD backend stub: every file has one speech span. -/
def vadVoiceEx : ℚ → String → Except String (List Seg × ℚ) :=
  fun _ _ => .ok ([⟨0, 1⟩], 5)

/-- Concrete speech backend stub for the transcriber witness. -/
def backendEx : String → ℚ → ℚ → List TSeg := fun _ _ _ => [⟨0, 2, " hello "⟩]

/-- Concrete filesystem for the transcriber witness: the transcript target
for `a.mp4` under the default `large-v3` model tag already exists. -/
def fsEx : String → Option String :=
  fun p => if p = "a_transcript_large_v3.txt" then some "old contents" else none

/-- A block covers a segment when the segment's span lies inside the
block's span. -/
def blockCovers (blk : Block) (s : Seg) : Prop :=
  blk.start ≤ s.start ∧ s.stop ≤ blk.stop

lemma floor_le_rhe (q : ℚ) : ⌊q⌋ ≤ rhe q := by
  unfold rhe
  split_ifs <;> omega

lemma rhe_le_floor_add_one (q : ℚ) : rhe q ≤ ⌊q⌋ + 1 := by
  unfold rhe
  split_ifs <;> omega

lemma rhe_mono {a b : ℚ} (h : a ≤ b) : rhe a ≤ rhe b := by
  rcases lt_or_le ⌊a⌋ ⌊b⌋ with hf | hf
  · calc rhe a ≤ ⌊a⌋ + 1 := rhe_le_floor_add_one a
      _ ≤ ⌊b⌋ := by omega
      _ ≤ rhe b := floor_le_rhe b
  · have hf' : ⌊a⌋ = ⌊b⌋ := le_antisymm (Int.floor_le_floor h) hf
    unfold rhe
    rw [hf']
    split_ifs with h1 h2 h3 h4 h5 h6 h7 <;>
      first
      | omega
      | (exfalso; push_neg at *; linarith)
  

lemma round2_mono {a b : ℚ} (h : a ≤ b) : round2 a ≤ round2 b := by
  unfold round2
  have h1 : rhe (100 * a) ≤ rhe (100 * b) := rhe_mono (by linarith)
  have h2 : ((rhe (100 * a) : ℚ)) ≤ ((rhe (100 * b) : ℚ)) := by exact_mod_cast h1
  linarith

lemma clusterStep_segmentCount (T : ℚ) (st : ClusterState) (s : Seg) :
    (clusterStep T st s).segmentCount = st.segmentCount + 1 := by
  unfold clusterStep
  split_ifs <;> rfl

lemma foldl_clusterStep_segmentCount (T : ℚ) :
    ∀ (l : List Seg) (st : ClusterState),
      (l.foldl (clusterStep T) st).segmentCount = st.segmentCount + l.length := by
  intro l
  induction l with
  | nil => intro st; simp
  | cons s r ih =>
    intro st
    simp only [List.foldl_cons, ih, clusterStep_segmentCount, List.length_cons]
    omega

lemma clusterStep_init (T : ℚ) (a : Seg) :
    clusterStep T ⟨[], -1, -1, 0⟩ a = ⟨[], a.start, a.stop, 1⟩ := by
  simp [clusterStep]

lemma clusterInv_first (a : Seg) : ClusterInv a.start ⟨[], a.start, a.stop, 1⟩ := by
  refine ⟨List.Pairwise.nil, fun _ => ⟨le_refl _, by simp⟩, by simp, by simp⟩

lemma clusterStep_inv {T m : ℚ} (hT : 0 ≤ T) {st : ClusterState} {s : Seg}
    (hm : m ≤ s.start) (h : ClusterInv m st) :
    ClusterInv s.start (clusterStep T st s) := by
  obtain ⟨h1, h2, h3, h4⟩ := h
  have hmono := round2_mono hm
  have hold : ∀ b ∈ st.blocks, b.stop ≤ round2 s.start ∧ b.start ≤ round2 s.start :=
    fun b hb => ⟨le_trans (h3 b hb).1 hmono, le_trans (h3 b hb).2 hmono⟩
  unfold clusterStep
  split_ifs with hsplit hcs hcs
  · -- gap found, current_start was the sentinel
    have hle : st.lastEnd ≤ s.start := by
      have := hsplit.2
      linarith
    have hleR : round2 st.lastEnd ≤ round2 s.start := round2_mono hle
    refine ⟨?_, ?_, ?_, ?_⟩
    · rw [List.pairwise_append]
      refine ⟨h1, List.pairwise_singleton _ _, ?_⟩
      intro b hb b' hb'
      simp only [List.mem_singleton] at hb'
      subst hb'
      exact ⟨(hold b hb).1, (hold b hb).2⟩
    · intro _
      refine ⟨le_refl _, ?_⟩
      intro b hb
      rcases List.mem_append.1 hb with hb | hb
      · exact hold b hb
      · simp only [List.mem_singleton] at hb
        subst hb
        exact ⟨hleR, le_refl _⟩
    · intro b hb
      rcases List.mem_append.1 hb with hb | hb
      · exact hold b hb
      · simp only [List.mem_singleton] at hb
        subst hb
        exact ⟨hleR, le_refl _⟩
    · simp only [List.length_append, List.length_singleton]
      omega
  · -- gap found, a block was open since an earlier segment
    have hle : st.lastEnd ≤ s.start := by
      have := hsplit.2
      linarith
    have hleR : round2 st.lastEnd ≤ round2 s.start := round2_mono hle
    obtain ⟨hcm, hbnd⟩ := h2 hcs
    have hcsR : round2 st.currentStart ≤ round2 s.start :=
      round2_mono (le_trans hcm hm)
    refine ⟨?_, ?_, ?_, ?_⟩
    · rw [List.pairwise_append]
      refine ⟨h1, List.pairwise_singleton _ _, ?_⟩
      intro b hb b' hb'
      simp only [List.mem_singleton] at hb'
      subst hb'
      exact ⟨(hbnd b hb).1, (hbnd b hb).2⟩
    · intro _
      refine ⟨le_refl _, ?_⟩
      intro b hb
      rcases List.mem_append.1 hb with hb | hb
      · exact hold b hb
      · simp only [List.mem_singleton] at hb
        subst hb
        exact ⟨hleR, hcsR⟩
    · intro b hb
      rcases List.mem_append.1 hb with hb | hb
      · exact hold b hb
      · simp only [List.mem_singleton] at hb
        subst hb
        exact ⟨hleR, hcsR⟩
    · simp only [List.length_append, List.length_singleton]
      omega
  · -- no gap, current_start was the sentinel
    refine ⟨h1, ?_, hold, by simp; omega⟩
    intro _
    exact ⟨le_refl _, hold⟩
  · -- no gap, block stays open
    obtain ⟨hcm, hbnd⟩ := h2 hcs
    refine ⟨h1, ?_, hold, by simp; omega⟩
    intro _
    exact ⟨le_trans hcm hm, hbnd⟩

lemma foldl_clusterStep_inv {T : ℚ} (hT : 0 ≤ T) :
    ∀ (l : List Seg) (st : ClusterState) (m : ℚ),
      ClusterInv m st → sortedFrom m l →
      ∃ m', ClusterInv m' (l.foldl (clusterStep T) st) := by
  intro l
  induction l with
  | nil => intro st m h _; exact ⟨m, h⟩
  | cons s r ih =>
    intro st m h hs
    simp only [List.foldl_cons]
    exact ih (clusterStep T st s) s.start (clusterStep_inv hT hs.1 h) hs.2

lemma sortedFrom_of_chain :
    ∀ (a : Seg) (l : List Seg),
      List.Chain' (fun x y : Seg => x.start ≤ y.start) (a :: l) →
      sortedFrom a.start l := by
  intro a l
  induction l generalizing a with
  | nil => intro _; trivial
  | cons b r ih =>
    intro h
    rw [List.chain'_cons] at h
    exact ⟨h.1, ih b h.2⟩

/-- C1 (counterexample): for the chronologically sorted, well-formed
segment list [(0,5), (3,8)] and the gap threshold -10 the two produced
blocks (0,5) and (3,8) overlap, so the claim fails for this threshold:
it quantifies over every gap threshold. -/
theorem cluster_claim1_cex :
    List.Chain' (fun x y : Seg => x.start ≤ y.start) [⟨0,5⟩, ⟨3,8⟩] ∧
    (∀ s ∈ ([⟨0,5⟩, ⟨3,8⟩] : List Seg), s.start ≤ s.stop) ∧
    ¬ List.Pairwise (fun b b' : Block => b.stop ≤ b'.start)
        (cluster_segments [⟨0,5⟩, ⟨3,8⟩] (-10)).1 := by
  refine ⟨?_, ?_, ?_⟩
  · norm_num [List.chain'_cons]
  · intro s hs
    fin_cases hs <;> norm_num
  · norm_num [cluster_segments, clusterStep, round2, rhe, List.pairwise_cons]

/-- C1 (amended): for every chronologically sorted segment list (each
start at most its end, starts non-decreasing) and every NON-NEGATIVE gap
threshold, the blocks of `cluster_segments` are pairwise non-overlapping
(each block ends no later than every later block starts), ordered by
start, the block count is at most the segment count, the returned segment
count is the length of the input, and the empty list yields zero blocks
and a zero count. -/
theorem cluster_segments_invariants (segs : List Seg) (T : ℚ)
    (hsort : List.Chain' (fun x y : Seg => x.start ≤ y.start) segs)
    (hwf : ∀ s ∈ segs, s.start ≤ s.stop) (hT : 0 ≤ T) :
    List.Pairwise (fun b b' : Block => b.stop ≤ b'.start) (cluster_segments segs T).1 ∧
    List.Pairwise (fun b b' : Block => b.start ≤ b'.start) (cluster_segments segs T).1 ∧
    (cluster_segments segs T).1.length ≤ segs.length ∧
    (cluster_segments segs T).2 = segs.length ∧
    (segs = [] → cluster_segments segs T = ([], 0)) := by
  cases segs with
  | nil =>
    refine ⟨?_, ?_, ?_, ?_, ?_⟩ <;> simp [cluster_segments]
  | cons a l =>
    have h1 : ClusterInv a.start (clusterStep T ⟨[], -1, -1, 0⟩ a) := by
      rw [clusterStep_init]
      exact clusterInv_first a
    obtain ⟨m', I1, I2, I3, I4⟩ :=
      foldl_clusterStep_inv hT l (clusterStep T ⟨[], -1, -1, 0⟩ a) a.start h1
        (sortedFrom_of_chain a l hsort)
    have hcnt : (List.foldl (clusterStep T) (clusterStep T ⟨[], -1, -1, 0⟩ a) l).segmentCount
        = l.length + 1 := by
      rw [foldl_clusterStep_segmentCount, clusterStep_segmentCount]
      show 0 + 1 + l.length = l.length + 1
      omega
    simp only [cluster_segments, List.foldl_cons]
    set stF := List.foldl (clusterStep T) (clusterStep T ⟨[], -1, -1, 0⟩ a) l with hstF
    by_cases hb : stF.currentStart = -1
    · rw [if_pos hb]
      refine ⟨I1.imp (fun h => h.1), I1.imp (fun h => h.2), ?_, ?_, ?_⟩
      · simp only [List.length_cons, List.length_nil]
        omega
      · simp only [List.length_cons, List.length_nil]
        omega
      · intro h
        simp at h
    · rw [if_neg hb]
      obtain ⟨-, hbnd⟩ := I2 hb
      refine ⟨?_, ?_, ?_, ?_, ?_⟩
      · rw [List.pairwise_append]
        refine ⟨I1.imp (fun h => h.1), List.pairwise_singleton _ _, ?_⟩
        intro x hx y hy
        simp only [List.mem_singleton] at hy
        subst hy
        exact (hbnd x hx).1
      · rw [List.pairwise_append]
        refine ⟨I1.imp (fun h => h.2), List.pairwise_singleton _ _, ?_⟩
        intro x hx y hy
        simp only [List.mem_singleton] at hy
        subst hy
        exact (hbnd x hx).2
      · simp only [List.length_append, List.length_singleton, List.length_cons,
          List.length_nil]
        omega
      · simp only [List.length_cons, List.length_nil]
        omega
      · intro h
        simp at h

/-- C1 (witness): the amended invariants hold at the spec's own example,
segments [(0,5), (10,15), (400,410)] with threshold 180. -/
theorem cluster_segments_invariants_witness :
    List.Chain' (fun x y : Seg => x.start ≤ y.start) [⟨0,5⟩, ⟨10,15⟩, ⟨400,410⟩] ∧
    (∀ s ∈ ([⟨0,5⟩, ⟨10,15⟩, ⟨400,410⟩] : List Seg), s.start ≤ s.stop) ∧ (0:ℚ) ≤ 180 ∧
    (List.Pairwise (fun b b' : Block => b.stop ≤ b'.start)
        (cluster_segments [⟨0,5⟩, ⟨10,15⟩, ⟨400,410⟩] 180).1 ∧
      List.Pairwise (fun b b' : Block => b.start ≤ b'.start)
        (cluster_segments [⟨0,5⟩, ⟨10,15⟩, ⟨400,410⟩] 180).1 ∧
      (cluster_segments [⟨0,5⟩, ⟨10,15⟩, ⟨400,410⟩] 180).1.length ≤
        ([⟨0,5⟩, ⟨10,15⟩, ⟨400,410⟩] : List Seg).length ∧
      (cluster_segments [⟨0,5⟩, ⟨10,15⟩, ⟨400,410⟩] 180).2 =
        ([⟨0,5⟩, ⟨10,15⟩, ⟨400,410⟩] : List Seg).length ∧
      (([⟨0,5⟩, ⟨10,15⟩, ⟨400,410⟩] : List Seg) = [] →
        cluster_segments [⟨0,5⟩, ⟨10,15⟩, ⟨400,410⟩] 180 = ([], 0))) := by
  have hc : List.Chain' (fun x y : Seg => x.start ≤ y.start) [⟨0,5⟩, ⟨10,15⟩, ⟨400,410⟩] := by
    norm_num [List.chain'_cons]
  have hw : ∀ s ∈ ([⟨0,5⟩, ⟨10,15⟩, ⟨400,410⟩] : List Seg), s.start ≤ s.stop := by
    intro s hs
    fin_cases hs <;> norm_num
  have ht : (0:ℚ) ≤ 180 := by norm_num
  exact ⟨hc, hw, ht, cluster_segments_invariants _ _ hc hw ht⟩

/-- C2 (counterexample): for the segment pair (-1, 0), (180, 185) with
threshold 180 the gap equals the threshold exactly, yet the output's only
block is (180, 185): the first segment is in no block at all, because its
start coincides with the -1 sentinel of `current_start`.  So the two
segments do not end up in the same block. -/
theorem cluster_equal_gap_cex :
    (cluster_segments [⟨-1, 0⟩, ⟨180, 185⟩] 180).1 = [⟨180, 185⟩] ∧
    ¬ blockCovers ⟨180, 185⟩ ⟨-1, 0⟩ := by
  constructor
  · norm_num [cluster_segments, clusterStep, round2, rhe]
  · intro h
    have := h.1
    norm_num [blockCovers] at this

/-- C2 (amended): for a pair of segments with non-negative timestamps
(each start at most its end), a gap exactly equal to the threshold merges
both segments into one block spanning from the first start to the second
end, while a strictly greater gap closes the first block at the first
segment's end and opens a new block at the second segment's start. -/
theorem cluster_segments_gap_boundary (a b : Seg) (T : ℚ)
    (ha0 : 0 ≤ a.start) (ha : a.start ≤ a.stop)
    (hb0 : 0 ≤ b.start) (hb : b.start ≤ b.stop) :
    (b.start - a.stop = T →
      cluster_segments [a, b] T = ([⟨round2 a.start, round2 b.stop⟩], 2)) ∧
    (T < b.start - a.stop →
      cluster_segments [a, b] T =
        ([⟨round2 a.start, round2 a.stop⟩, ⟨round2 b.start, round2 b.stop⟩], 2)) := by
  have hane : a.start ≠ -1 := by
    intro e
    rw [e] at ha0
    norm_num at ha0
  have hstopne : a.stop ≠ -1 := by
    intro e
    rw [e] at ha
    linarith
  have hbne : b.start ≠ -1 := by
    intro e
    rw [e] at hb0
    norm_num at hb0
  have e1 : clusterStep T ⟨[], -1, -1, 0⟩ a = ⟨[], a.start, a.stop, 1⟩ :=
    clusterStep_init T a
  constructor
  · intro hgap
    have hnot : ¬((a.stop : ℚ) ≠ -1 ∧ T < b.start - a.stop) := by
      rw [hgap]
      intro hcon
      exact absurd hcon.2 (lt_irrefl T)
    have e2 : clusterStep T ⟨[], a.start, a.stop, 1⟩ b = ⟨[], a.start, b.stop, 2⟩ := by
      unfold clusterStep
      rw [if_neg hnot]
      simp [hane]
    simp only [cluster_segments, List.foldl_cons, List.foldl_nil, e1, e2]
    rw [if_neg hane]
    simp
  · intro hgap
    have hyes : ((a.stop : ℚ) ≠ -1 ∧ T < b.start - a.stop) := ⟨hstopne, hgap⟩
    have e2 : clusterStep T ⟨[], a.start, a.stop, 1⟩ b =
        ⟨[⟨round2 a.start, round2 a.stop⟩], b.start, b.stop, 2⟩ := by
      unfold clusterStep
      rw [if_pos hyes]
      simp [hane]
    simp only [cluster_segments, List.foldl_cons, List.foldl_nil, e1, e2]
    rw [if_neg hbne]
    simp

/-- C2 (witness): the merge case at segments (0,5), (185,190) with
threshold 180 (gap exactly 180) produces the single block (0, 190). -/
theorem cluster_segments_gap_boundary_witness :
    (0:ℚ) ≤ 0 ∧ (0:ℚ) ≤ 5 ∧ (0:ℚ) ≤ 185 ∧ (185:ℚ) ≤ 190 ∧
    cluster_segments [⟨0, 5⟩, ⟨185, 190⟩] 180 = ([⟨round2 0, round2 190⟩], 2) := by
  refine ⟨le_refl _, by norm_num, by norm_num, by norm_num, ?_⟩
  exact (cluster_segments_gap_boundary ⟨0, 5⟩ ⟨185, 190⟩ 180 (by norm_num) (by norm_num)
    (by norm_num) (by norm_num)).1 (by norm_num)

lemma vadScan_foldl (vad : String → Except String (List Seg × ℚ))
    (ex : String → Option ScanEntry) :
    ∀ (files : List String) (acc : List ScanEntry × ℕ × List String),
      files.foldl (vadScanStep vad ex) acc =
        (acc.1 ++ files.map (resumeEntryF vad ex),
         acc.2.1 + (files.map (resumeInc vad ex)).sum,
         acc.2.2 ++ files.filter (scanNeeded ex)) := by
  intro files
  induction files with
  | nil => intro acc; simp
  | cons f r ih =>
    intro acc
    simp only [List.foldl_cons, ih]
    cases hex : ex f with
    | some prev =>
      by_cases herr : prev.error = none <;>
        simp [vadScanStep, resumeEntryF, resumeInc, scanNeeded, hex, herr,
          List.filter_cons, Nat.add_assoc]
    | none =>
      simp [vadScanStep, resumeEntryF, resumeInc, scanNeeded, hex,
        List.filter_cons, Nat.add_assoc]

lemma resumeEntryF_empty (vad : String → Except String (List Seg × ℚ)) (f : String) :
    resumeEntryF vad (fun _ => none) f = vadScanFile vad f := rfl

lemma resumeInc_empty (vad : String → Except String (List Seg × ℚ)) (f : String) :
    resumeInc vad (fun _ => none) f = vadVoiceInc vad f := rfl

lemma lookupEntry_file :
    ∀ (rs : List ScanEntry) (f : String) (p : ScanEntry),
      lookupEntry rs f = some p → p.file = f := by
  have aux : ∀ (rs : List ScanEntry) (f : String) (acc : Option ScanEntry),
      (∀ p, acc = some p → p.file = f) →
      ∀ p, rs.foldl (fun a r => if r.file = f then some r else a) acc = some p → p.file = f := by
    intro rs
    induction rs with
    | nil => intro f acc hacc p hp; exact hacc p hp
    | cons r rs' ih =>
      intro f acc hacc p hp
      simp only [List.foldl_cons] at hp
      refine ih f _ ?_ p hp
      intro q hq
      by_cases hr : r.file = f
      · rw [if_pos hr] at hq
        cases hq
        exact hr
      · rw [if_neg hr] at hq
        exact hacc q hq
  intro rs f p hp
  exact aux rs f none (by intro q hq; cases hq) p hp

lemma lookupEntry_map (g : String → ScanEntry) (f : String)
    (hg : ∀ x, (g x).file = x) :
    ∀ (l : List String),
      lookupEntry (l.map g) f = if f ∈ l then some (g f) else none := by
  have aux : ∀ (l : List String) (acc : Option ScanEntry),
      (l.map g).foldl (fun a r => if r.file = f then some r else a) acc =
        if f ∈ l then some (g f) else acc := by
    intro l
    induction l with
    | nil => intro acc; simp
    | cons x r ih =>
      intro acc
      simp only [List.map_cons, List.foldl_cons, ih, hg x]
      by_cases hfr : f ∈ r
      · simp [hfr]
      · by_cases hx : x = f
        · subst hx
          simp [hfr]
        · have : ¬ f = x := fun e => hx e.symm
          simp [hfr, hx, this]
  intro l
  exact aux l none

/-- C3: in a batch VAD scan with `skip_existing` and a prior report on
disk, the result list is one entry per discovered file where a prior
error-free entry is copied verbatim (and independent of the VAD backend,
i.e. the file is not reprocessed — it does not appear in the scanned-file
trace), while a file whose prior entry records an error is sent to the
backend again and its entry freshly computed. -/
theorem vad_scan_skip_existing (vad : ℚ → String → Except String (List Seg × ℚ))
    (now dir : String) (θ : ℚ) (files : List String) (rpt : ScanReport) :
    ((run_batch_vad_scan vad now dir θ files (some rpt) true).1.results =
      files.map (resumeEntryF (vad θ) (lookupEntry rpt.results))) ∧
    (∀ f prev, lookupEntry rpt.results f = some prev → prev.error = none →
      resumeEntryF (vad θ) (lookupEntry rpt.results) f = prev ∧
      (∀ vad' : String → Except String (List Seg × ℚ),
        resumeEntryF vad' (lookupEntry rpt.results) f = prev) ∧
      f ∉ (run_batch_vad_scan vad now dir θ files (some rpt) true).2) ∧
    (∀ f prev, lookupEntry rpt.results f = some prev → prev.error ≠ none →
      resumeEntryF (vad θ) (lookupEntry rpt.results) f = vadScanFile (vad θ) f ∧
      (f ∈ files → f ∈ (run_batch_vad_scan vad now dir θ files (some rpt) true).2)) := by
  have hrun : run_batch_vad_scan vad now dir θ files (some rpt) true =
      ({ date := now, directory := dir, total_files := files.length,
         files_with_voice := (files.map (resumeInc (vad θ) (lookupEntry rpt.results))).sum,
         results := files.map (resumeEntryF (vad θ) (lookupEntry rpt.results)),
         scan_model := "silero-vad", vad_threshold := θ },
       files.filter (scanNeeded (lookupEntry rpt.results))) := by
    simp [run_batch_vad_scan, vadScan_foldl]
  refine ⟨by rw [hrun], ?_, ?_⟩
  · intro f prev hl herr
    refine ⟨by simp [resumeEntryF, hl, herr], ?_, ?_⟩
    · intro vad'
      simp [resumeEntryF, hl, herr]
    · rw [hrun]
      simp only [List.mem_filter]
      intro hmem
      have : scanNeeded (lookupEntry rpt.results) f = false := by
        simp [scanNeeded, hl, herr]
      rw [this] at hmem
      exact absurd hmem.2 (by simp)
  · intro f prev hl herr
    refine ⟨by simp [resumeEntryF, hl, herr], ?_⟩
    intro hmem
    rw [hrun]
    simp only [List.mem_filter]
    refine ⟨hmem, ?_⟩
    simp [scanNeeded, hl, herr]

/-- C3 (witness): with a prior report holding an error-free entry for
`old.mp4`, a resumed scan over the discovery result [old.mp4] copies that
entry verbatim and does not contact the VAD backend for it. -/
theorem vad_scan_skip_existing_witness :
    lookupEntry rptEx.results "old.mp4" = some oldEntryEx ∧
    oldEntryEx.error = none ∧
    resumeEntryF (vadEx (1/2)) (lookupEntry rptEx.results) "old.mp4" = oldEntryEx ∧
    "old.mp4" ∉ (run_batch_vad_scan vadEx "t2" "/media" (1/2) ["old.mp4"] (some rptEx) true).2 := by
  have h := (vad_scan_skip_existing vadEx "t2" "/media" (1/2) ["old.mp4"] rptEx).2.1
    "old.mp4" oldEntryEx (by decide) (by decide)
  exact ⟨by decide, by decide, h.1, h.2.2⟩

lemma run_batch_vad_scan_skip_eq (vad : ℚ → String → Except String (List Seg × ℚ))
    (now dir : String) (θ : ℚ) (files : List String) (rpt : ScanReport) :
    run_batch_vad_scan vad now dir θ files (some rpt) true =
      ({ date := now, directory := dir, total_files := files.length,
         files_with_voice := (files.map (resumeInc (vad θ) (lookupEntry rpt.results))).sum,
         results := files.map (resumeEntryF (vad θ) (lookupEntry rpt.results)),
         scan_model := "silero-vad", vad_threshold := θ },
       files.filter (scanNeeded (lookupEntry rpt.results))) := by
  simp [run_batch_vad_scan, vadScan_foldl]

lemma vadScanFile_file (vad : String → Except String (List Seg × ℚ)) (f : String) :
    (vadScanFile vad f).file = f := by
  unfold vadScanFile
  cases vad f with
  | error e => rfl
  | ok p =>
    cases p with
    | mk ts total =>
      by_cases hts : ts.isEmpty <;> simp [hts]

lemma resumeEntryF_lookup_file (vad : String → Except String (List Seg × ℚ))
    (rs : List ScanEntry) (f : String) :
    (resumeEntryF vad (lookupEntry rs) f).file = f := by
  unfold resumeEntryF
  cases hl : lookupEntry rs f with
  | none => exact vadScanFile_file vad f
  | some prev =>
    dsimp only
    by_cases herr : prev.error = none
    · rw [if_pos herr]
      exact lookupEntry_file rs f prev hl
    · rw [if_neg herr]
      exact vadScanFile_file vad f

lemma run_batch_vad_scan_none_eq (vad : ℚ → String → Except String (List Seg × ℚ))
    (now dir : String) (θ : ℚ) (files : List String) :
    run_batch_vad_scan vad now dir θ files none true =
      ({ date := now, directory := dir, total_files := files.length,
         files_with_voice := (files.map (vadVoiceInc (vad θ))).sum,
         results := files.map (vadScanFile (vad θ)),
         scan_model := "silero-vad", vad_threshold := θ },
       files) := by
  have h1 : (resumeEntryF (vad θ) (fun _ => none)) = vadScanFile (vad θ) :=
    funext (resumeEntryF_empty (vad θ))
  have h2 : (resumeInc (vad θ) (fun _ => none)) = vadVoiceInc (vad θ) :=
    funext (resumeInc_empty (vad θ))
  simp [run_batch_vad_scan, vadScan_foldl, h1, h2, scanNeeded]

/-- C4 (counterexample): a resumed batch VAD scan whose prior report holds
an error-free entry for `old.mp4` but whose current discovery only finds
`a.mp4` writes a report containing only the `a.mp4` entry: the prior
`old.mp4` entry is not retained in the saved report. -/
theorem vad_scan_resume_drops_old_cex :
    lookupEntry rptEx.results "old.mp4" = some oldEntryEx ∧
    ((run_batch_vad_scan vadEx "t2" "/media" (1/2) ["a.mp4"] (some rptEx) true).1.results.map
      (fun e => e.file)) = ["a.mp4"] := by
  constructor
  · decide
  · rw [run_batch_vad_scan_skip_eq]
    decide

/-- C4 (amended): after a resumed batch run, the saved report's result
list is exactly one entry per currently discovered file, in discovery
order — a prior error-free entry copied, otherwise a fresh scan — so its
file set equals the discovery result; prior entries for files not in the
current discovery are dropped, not retained. -/
theorem vad_scan_report_replaces (vad : ℚ → String → Except String (List Seg × ℚ))
    (now dir : String) (θ : ℚ) (files : List String) (rpt : ScanReport) :
    (run_batch_vad_scan vad now dir θ files (some rpt) true).1.results =
      files.map (resumeEntryF (vad θ) (lookupEntry rpt.results)) ∧
    ((run_batch_vad_scan vad now dir θ files (some rpt) true).1.results.map
      (fun e => e.file)) = files := by
  rw [run_batch_vad_scan_skip_eq]
  refine ⟨rfl, ?_⟩
  simp only [List.map_map]
  rw [List.map_congr_left (fun f _ => ?_), List.map_id]
  exact resumeEntryF_lookup_file (vad θ) rpt.results f

/-- C9: running the batch VAD scan twice with `skip_existing` over an
unchanged file set and deterministic backend, with no per-file errors,
yields a second report equal to the first in every field except the
timestamp: same results, total_files, files_with_voice, directory,
scan_model and vad_threshold. -/
theorem vad_scan_resume_idempotent (vad : ℚ → String → Except String (List Seg × ℚ))
    (now1 now2 dir : String) (θ : ℚ) (files : List String)
    (herr : ∀ f ∈ files, (vadScanFile (vad θ) f).error = none) :
    ((run_batch_vad_scan vad now2 dir θ files
        (some (run_batch_vad_scan vad now1 dir θ files none true).1) true).1.results =
      (run_batch_vad_scan vad now1 dir θ files none true).1.results) ∧
    ((run_batch_vad_scan vad now2 dir θ files
        (some (run_batch_vad_scan vad now1 dir θ files none true).1) true).1.total_files =
      (run_batch_vad_scan vad now1 dir θ files none true).1.total_files) ∧
    ((run_batch_vad_scan vad now2 dir θ files
        (some (run_batch_vad_scan vad now1 dir θ files none true).1) true).1.files_with_voice =
      (run_batch_vad_scan vad now1 dir θ files none true).1.files_with_voice) ∧
    ((run_batch_vad_scan vad now2 dir θ files
        (some (run_batch_vad_scan vad now1 dir θ files none true).1) true).1.directory =
      (run_batch_vad_scan vad now1 dir θ files none true).1.directory) ∧
    ((run_batch_vad_scan vad now2 dir θ files
        (some (run_batch_vad_scan vad now1 dir θ files none true).1) true).1.scan_model =
      (run_batch_vad_scan vad now1 dir θ files none true).1.scan_model) ∧
    ((run_batch_vad_scan vad now2 dir θ files
        (some (run_batch_vad_scan vad now1 dir θ files none true).1) true).1.vad_threshold =
      (run_batch_vad_scan vad now1 dir θ files none true).1.vad_threshold) := by
  rw [run_batch_vad_scan_none_eq, run_batch_vad_scan_skip_eq]
  dsimp only
  have hlk : ∀ f ∈ files,
      lookupEntry (files.map (vadScanFile (vad θ))) f = some (vadScanFile (vad θ) f) := by
    intro f hf
    rw [lookupEntry_map (vadScanFile (vad θ)) f (vadScanFile_file (vad θ)), if_pos hf]
  refine ⟨?_, rfl, ?_, rfl, rfl, rfl⟩
  · apply List.map_congr_left
    intro f hf
    unfold resumeEntryF
    rw [hlk f hf]
    dsimp only
    rw [if_pos (herr f hf)]
  · congr 1
    apply List.map_congr_left
    intro f hf
    unfold resumeInc
    rw [hlk f hf]
    dsimp only
    rw [if_pos (herr f hf)]
    cases hv : vad θ f with
    | error e =>
      have := herr f hf
      rw [vadScanFile, hv] at this
      simp at this
    | ok p =>
      cases p with
      | mk ts total =>
        by_cases hts : ts.isEmpty
        · simp [vadScanFile, vadVoiceInc, hv, hts]
        · have hpos : 0 < ts.length := by
            cases ts with
            | nil => simp at hts
            | cons x xs => simp
          simp [vadScanFile, vadVoiceInc, hv, hts, hpos]

/-- C9 (witness): resume idempotence at the one-file set [a.mp4] with a
backend that always finds one speech span. -/
theorem vad_scan_resume_idempotent_witness :
    (∀ f ∈ (["a.mp4"] : List String), (vadScanFile (vadVoiceEx (1/2)) f).error = none) ∧
    (((run_batch_vad_scan vadVoiceEx "t2" "/media" (1/2) ["a.mp4"]
        (some (run_batch_vad_scan vadVoiceEx "t1" "/media" (1/2) ["a.mp4"] none true).1) true).1.results =
      (run_batch_vad_scan vadVoiceEx "t1" "/media" (1/2) ["a.mp4"] none true).1.results) ∧
    ((run_batch_vad_scan vadVoiceEx "t2" "/media" (1/2) ["a.mp4"]
        (some (run_batch_vad_scan vadVoiceEx "t1" "/media" (1/2) ["a.mp4"] none true).1) true).1.total_files =
      (run_batch_vad_scan vadVoiceEx "t1" "/media" (1/2) ["a.mp4"] none true).1.total_files) ∧
    ((run_batch_vad_scan vadVoiceEx "t2" "/media" (1/2) ["a.mp4"]
        (some (run_batch_vad_scan vadVoiceEx "t1" "/media" (1/2) ["a.mp4"] none true).1) true).1.files_with_voice =
      (run_batch_vad_scan vadVoiceEx "t1" "/media" (1/2) ["a.mp4"] none true).1.files_with_voice) ∧
    ((run_batch_vad_scan vadVoiceEx "t2" "/media" (1/2) ["a.mp4"]
        (some (run_batch_vad_scan vadVoiceEx "t1" "/media" (1/2) ["a.mp4"] none true).1) true).1.directory =
      (run_batch_vad_scan vadVoiceEx "t1" "/media" (1/2) ["a.mp4"] none true).1.directory) ∧
    ((run_batch_vad_scan vadVoiceEx "t2" "/media" (1/2) ["a.mp4"]
        (some (run_batch_vad_scan vadVoiceEx "t1" "/media" (1/2) ["a.mp4"] none true).1) true).1.scan_model =
      (run_batch_vad_scan vadVoiceEx "t1" "/media" (1/2) ["a.mp4"] none true).1.scan_model) ∧
    ((run_batch_vad_scan vadVoiceEx "t2" "/media" (1/2) ["a.mp4"]
        (some (run_batch_vad_scan vadVoiceEx "t1" "/media" (1/2) ["a.mp4"] none true).1) true).1.vad_threshold =
      (run_batch_vad_scan vadVoiceEx "t1" "/media" (1/2) ["a.mp4"] none true).1.vad_threshold)) := by
  have herr : ∀ f ∈ (["a.mp4"] : List String),
      (vadScanFile (vadVoiceEx (1/2)) f).error = none := by
    intro f hf
    simp [vadScanFile, vadVoiceEx]
  exact ⟨herr,
    vad_scan_resume_idempotent vadVoiceEx "t1" "t2" "/media" (1/2) ["a.mp4"] herr⟩

/-- C6: a stdin line that fails JSON parsing produces exactly one error
line, and the loop goes on to process the remaining input unchanged: the
server does not terminate on malformed input. -/
theorem server_malformed_line_continues (env : ServerEnv) (st : ModelCache)
    (rest : List (Option Cmd)) :
    run_server env st (none :: rest) = .invalidJsonError :: run_server env st rest := by
  simp [run_server]

/-- C7: the single-slot model cache loads only on key change: when a
server scan or transcribe command requests the model already recorded in
the cache, the state (name, handle, construction count) is returned
untouched — no new backend is constructed; when the requested name
differs, exactly one construction happens (the load counter advances by
one), the handle is the freshly constructed one and the recorded name
becomes the request. -/
theorem backend_cache_key_change (st : ModelCache) (c : Cmd) (r : String)
    (hreq : requestedModel c = some r) :
    (st.name = r → serverCacheStep c st = st) ∧
    (st.name ≠ r → serverCacheStep c st =
      { name := r, handle := st.loads + 1, loads := st.loads + 1 }) := by
  unfold serverCacheStep
  rw [hreq]
  dsimp only
  unfold ensureModel
  constructor
  · intro h
    rw [if_pos h]
  · intro h
    rw [if_neg h]

/-- C7 (witness): a scan command against the startup cache (tiny.en
already loaded) reuses the cache unchanged, and a transcribe command
requesting the default large-v3 triggers exactly one fresh load. -/
theorem backend_cache_key_change_witness :
    requestedModel ⟨some "scan", none⟩ = some "tiny.en" ∧
    serverCacheStep ⟨some "scan", none⟩ serverInitCache = serverInitCache ∧
    requestedModel ⟨some "transcribe", none⟩ = some "large-v3" ∧
    serverCacheStep ⟨some "transcribe", none⟩ serverInitCache =
      { name := "large-v3", handle := 2, loads := 2 } := by
  refine ⟨rfl, ?_, rfl, ?_⟩
  · exact (backend_cache_key_change serverInitCache ⟨some "scan", none⟩ "tiny.en" rfl).1 rfl
  · exact (backend_cache_key_change serverInitCache ⟨some "transcribe", none⟩
      "large-v3" rfl).2 (by decide)

/-- C10: when `run_transcriber` is called with `skip_existing` and the
computed transcript path already exists, it returns the empty line list
and leaves the entire filesystem unchanged — no write event occurs — yet
the speech backend has already been invoked for the requested window
before the existence check, as the event trace records. -/
theorem transcriber_skip_existing (backend : String → ℚ → ℚ → List TSeg)
    (fs : String → Option String) (file : String) (start stop : ℚ)
    (model_name : String) (output_dir : Option String)
    (hex : (fs (transcriptPath file model_name output_dir)).isSome = true) :
    run_transcriber backend fs file start stop model_name output_dir true =
      ([], fs, [TEvent.transcribeCall file start stop]) := by
  simp [run_transcriber, hex]

/-- C10 (witness): with an existing transcript `a_transcript_large_v3.txt`
on disk, a skip-existing transcription of `a.mp4` returns nothing and
leaves the filesystem untouched while still calling the backend. -/
theorem transcriber_skip_existing_witness :
    (fsEx (transcriptPath "a.mp4" "large-v3" none)).isSome = true ∧
    run_transcriber backendEx fsEx "a.mp4" 0 2 "large-v3" none true =
      ([], fsEx, [TEvent.transcribeCall "a.mp4" 0 2]) := by
  have hex : (fsEx (transcriptPath "a.mp4" "large-v3" none)).isSome = true := by decide
  exact ⟨hex, transcriber_skip_existing backendEx fsEx "a.mp4" 0 2 "large-v3" none hex⟩

/-- C8: media discovery returns exactly the walked files whose extension,
lower-cased, is in the fixed allow-list — each joined to its directory —
in lexicographic order on the final path string; on a directory holding
a.mp4, b.txt and c.MKV it returns exactly [a.mp4, c.MKV] with b.txt
excluded. -/
theorem find_media_files_spec (w : List (String × List String)) :
    List.Pairwise (fun a b : String => a ≤ b) (find_media_files w) ∧
    (∀ x : String, x ∈ find_media_files w ↔ ∃ p ∈ w, ∃ f ∈ p.2,
      MEDIA_EXTENSIONS.contains (toLowerStr (splitext f).2) = true ∧ x = joinPath p.1 f) ∧
    find_media_files [("/d", ["a.mp4", "b.txt", "c.MKV"])] = ["/d/a.mp4", "/d/c.MKV"] := by
  refine ⟨?_, ?_, ?_⟩
  · unfold find_media_files
    have h := @List.sorted_mergeSort String (fun a b : String => a ≤ b)
      (fun a b c hab hbc => by
        simp only [decide_eq_true_eq] at *
        exact le_trans hab hbc)
      (fun a b => by
        simp only [Bool.or_eq_true, decide_eq_true_eq]
        exact le_total a b)
      ((w.flatMap (fun rf =>
        (rf.2.filter (fun f => MEDIA_EXTENSIONS.contains (toLowerStr (splitext f).2))).map
          (fun f => joinPath rf.1 f))))
    exact h.imp (fun hab => by simpa using hab)
  · intro x
    unfold find_media_files
    rw [(List.mergeSort_perm _ _).mem_iff]
    simp [List.mem_flatMap, List.mem_filter, eq_comm, and_assoc]
  · unfold find_media_files
    have h1 : ([("/d", ["a.mp4", "b.txt", "c.MKV"])] : List (String × List String)).flatMap
        (fun rf => (rf.2.filter
          (fun f => MEDIA_EXTENSIONS.contains (toLowerStr (splitext f).2))).map
          (fun f => joinPath rf.1 f)) = ["/d/a.mp4", "/d/c.MKV"] := by decide
    rw [h1]
    apply List.mergeSort_of_sorted
    refine List.Pairwise.cons ?_ (List.pairwise_singleton _ _)
    intro y hy
    simp only [List.mem_singleton] at hy
    subst hy
    have : ("/d/a.mp4" : String) ≤ "/d/c.MKV" := by
      rw [String.le_iff_toList_le]
      decide
    simpa using this
